import Mathlib

/-!
Shallow embedding of the ALFRED scene-description scripts
(scripts/scene_info_extract.py and scripts/scene_info_extract_claude.py).

Positions are rational triples (the JSON carries decimal floats); the
horizontal distance uses the real square root, exactly as the source's
math.sqrt, so distance-valued definitions live in the reals.
-/

/-- A 3D position (the x/y/z dictionary of the source). -/
structure Pos where
  x : ℚ
  y : ℚ
  z : ℚ
deriving DecidableEq, Repr

/-- A scene-metadata object: the fields of the simulator's object dictionary
that the scripts read. -/
structure MetaObj where
  name : String
  objectType : String
  receptacle : Bool
  pos : Pos
  isBroken : Bool := false
  isDirty : Bool := false
  isFilledWithLiquid : Bool := false
  isToggled : Bool := false
deriving DecidableEq, Repr

/-- One entry of the trajectory's object_poses list. -/
structure PoseObj where
  objectName : String
  pos : Pos
deriving DecidableEq, Repr

/-- The four spatial labels of the classifier. -/
inductive Label where
  | on
  | inside
  | next_to
  | near
deriving DecidableEq, Repr

/-- scene_info_extract.py line 11: s[0].upper() + s[1:] if s else s. -/
def capitalize_first (s : String) : String :=
  match s.data with
  | [] => s
  | c :: rest => String.mk (c.toUpper :: rest)

/-- scene_info_extract.py line 100: item_name.split("_")[0].lower().
Python string splitting and lowering are modelled on the character list. -/
def itemTypeOf (name : String) : String :=
  String.mk (((name.data.splitOnP (fun c => c = '_')).headD []).map Char.toLower)

/-- scene_info_extract.py lines 5-6: planar distance in the x/z plane. -/
noncomputable def horizontal_dist (p1 p2 : Pos) : ℝ :=
  Real.sqrt (((p1.x : ℝ) - (p2.x : ℝ)) ^ 2 + ((p1.z : ℝ) - (p2.z : ℝ)) ^ 2)

/-- scene_info_extract.py line 129: abs(item_pos["y"] - rec_pos["y"]). -/
def vertical_dist (p1 p2 : Pos) : ℚ :=
  |p1.y - p2.y|

/-- scene_info_extract.py lines 131-152: the if/elif classification chain.
Returns the relationship label and its score, or none when no rule fires. -/
noncomputable def classifyRel (item_pos rec_pos : Pos) : Option (Label × ℝ) :=
  if item_pos.y > rec_pos.y ∧ vertical_dist item_pos rec_pos < 1.5 ∧
      horizontal_dist item_pos rec_pos < 1.0 then
    some (Label.on, horizontal_dist item_pos rec_pos)
  else if vertical_dist item_pos rec_pos < 0.3 ∧ horizontal_dist item_pos rec_pos < 0.5 then
    some (Label.inside, horizontal_dist item_pos rec_pos + 0.1)
  else if vertical_dist item_pos rec_pos < 0.5 ∧ horizontal_dist item_pos rec_pos < 1.5 then
    some (Label.next_to, horizontal_dist item_pos rec_pos + 0.5)
  else if horizontal_dist item_pos rec_pos < 2.5 then
    some (Label.near, horizontal_dist item_pos rec_pos + 1.0)
  else
    none

/-- scene_info_extract_claude.py lines 248-269: same guard chain, but the
"on" and "in" branches both use the bare horizontal distance as priority
(no +0.1 offset on the "in" branch). -/
noncomputable def classifyRelClaude (item_pos rec_pos : Pos) : Option (Label × ℝ) :=
  if item_pos.y > rec_pos.y ∧ vertical_dist item_pos rec_pos < 1.5 ∧
      horizontal_dist item_pos rec_pos < 1.0 then
    some (Label.on, horizontal_dist item_pos rec_pos)
  else if vertical_dist item_pos rec_pos < 0.3 ∧ horizontal_dist item_pos rec_pos < 0.5 then
    some (Label.inside, horizontal_dist item_pos rec_pos)
  else if vertical_dist item_pos rec_pos < 0.5 ∧ horizontal_dist item_pos rec_pos < 1.5 then
    some (Label.next_to, horizontal_dist item_pos rec_pos + 0.5)
  else if horizontal_dist item_pos rec_pos < 2.5 then
    some (Label.near, horizontal_dist item_pos rec_pos + 1.0)
  else
    none

/-- scene_info_extract.py lines 136-151: the phrase attached to each label. -/
def relPhrase (l : Label) (recType : String) : String :=
  match l with
  | Label.on => "on the " ++ recType
  | Label.inside => "inside the " ++ recType
  | Label.next_to => "next to the " ++ recType
  | Label.near => "near the " ++ recType

/-- scene_info_extract.py lines 124-156: one step of the best-receptacle
scan.  float("inf") is modelled by the none accumulator: every finite score
beats it, exactly as in the source. -/
noncomputable def bestStep (item_pos : Pos) (best : Option (String × ℝ)) (rec : MetaObj) :
    Option (String × ℝ) :=
  match classifyRel item_pos rec.pos with
  | none => best
  | some (l, score) =>
    match best with
    | none => some (relPhrase l rec.objectType.toLower, score)
    | some (br, bs) =>
      if score < bs then some (relPhrase l rec.objectType.toLower, score)
      else some (br, bs)

/-- scene_info_extract.py lines 121-156: the best-receptacle scan for one
item. -/
noncomputable def bestRel (item_pos : Pos) (recs : List MetaObj) : Option (String × ℝ) :=
  recs.foldl (bestStep item_pos) none

/-- scene_info_extract_claude.py lines 231-274: the same scan, keeping the
(relationship, priority, receptacle type) triple, using the pose position of
each receptacle and the claude variant of the classifier. -/
noncomputable def findBestClaude (item_pos : Pos) (receps : List (PoseObj × MetaObj)) :
    Option (Label × ℝ × String) :=
  receps.foldl
    (fun best rd =>
      match classifyRelClaude item_pos rd.1.pos with
      | none => best
      | some (l, pr) =>
        match best with
        | none => some (l, pr, rd.2.objectType)
        | some (bl, bs, br) =>
          if pr < bs then some (l, pr, rd.2.objectType) else some (bl, bs, br))
    none

/-- scene_info_extract.py line 77: name-to-object dictionary.  A Python dict
comprehension keeps the last entry for a duplicated name, hence the reversed
search. -/
def obj_by_name (objects : List MetaObj) (n : String) : Option MetaObj :=
  objects.reverse.find? (fun o => o.name == n)

/-- scene_info_extract.py lines 82-84: objects whose receptacle flag is set. -/
def receptacles_meta (objects : List MetaObj) : List MetaObj :=
  objects.filter (fun o => o.receptacle)

/-- scene_info_extract.py lines 103-109: metadata position when the item
matches, else the pose position. -/
def itemPosOf (objects : List MetaObj) (pose : PoseObj) : Pos :=
  match obj_by_name objects pose.objectName with
  | some m => m.pos
  | none => pose.pos

/-- scene_info_extract.py lines 112-118: the parenthesised state adjectives. -/
def state_adj (m : Option MetaObj) : String :=
  match m with
  | none => ""
  | some o =>
    let parts :=
      (if o.isBroken then ["broken"] else []) ++
      (if o.isDirty then ["dirty"] else []) ++
      (if o.isFilledWithLiquid then ["filled with liquid"] else []) ++
      (if o.isToggled then ["toggled on"] else [])
    if parts.isEmpty then "" else " (" ++ String.intercalate ", " parts ++ ")"

/-- scene_info_extract.py lines 98-159: the sentence produced for one pose. -/
noncomputable def itemLine (objects : List MetaObj) (recs : List MetaObj)
    (pose : PoseObj) : String :=
  capitalize_first
    ("A " ++ itemTypeOf pose.objectName ++ state_adj (obj_by_name objects pose.objectName) ++
      " is " ++
      (match bestRel (itemPosOf objects pose) recs with
       | some (r, _) => r
       | none => "lying in the room") ++ ".")

/-- scene_info_extract.py lines 96-159: one relationship line per pose. -/
noncomputable def relationshipLines (objects : List MetaObj) (poses : List PoseObj) :
    List String :=
  poses.map (itemLine objects (receptacles_meta objects))

/-- scene_info_extract.py lines 201-207: the trailing summary sentence. -/
def summaryLine (total_items total_recs : Nat) : String :=
  "In total there " ++ (if total_items = 1 then "is" else "are") ++ " " ++
  toString total_items ++ " movable object" ++ (if total_items ≠ 1 then "s" else "") ++
  " and " ++ toString total_recs ++ " receptacle" ++ (if total_recs ≠ 1 then "s" else "") ++
  " in the room."

/-- scene_info_extract.py lines 21-23 (and the claude copy, lines 82-84):
reduce the random seed modulo 2147483647 only when it exceeds that bound. -/
def normalizeSeed (s : ℤ) : ℤ :=
  if s > 2147483647 then s % 2147483647 else s

/-- scene_info_extract_claude.py line 13: pose_name.split('_')[0], with the
split modelled on the character list. -/
def baseName (pose_name : String) : String :=
  String.mk ((pose_name.data.splitOnP (fun c => c = '_')).headD [])

/-- scene_info_extract_claude.py lines 5-34: the three-pass name matcher.
The used set is threaded explicitly; the caller records the returned name. -/
def match_object_name (pose_name : String) (metadata : List MetaObj)
    (used : List String) : Option MetaObj :=
  match metadata.find? (fun o => o.name == pose_name && !(used.contains o.name)) with
  | some o => some o
  | none =>
    match metadata.find? (fun o => o.objectType == baseName pose_name &&
        !(used.contains o.name)) with
    | some o => some o
    | none =>
      metadata.find? (fun o => (baseName pose_name ++ "_").data.isPrefixOf o.name.data &&
        !(used.contains o.name))

/-- scene_info_extract_claude.py lines 154-158: object types that occur on a
receptacle-flagged metadata object. -/
def receptacleTypes (metadata : List MetaObj) : List String :=
  (metadata.filter (fun o => o.receptacle)).map (fun o => o.objectType)

/-- scene_info_extract_claude.py lines 193-219: the partition loop.  Returns
(receptacles, items, dropped): matched poses are classified by whether their
metadata object type is a receptacle type; unmatched poses are dropped (the
source prints a warning for each). -/
def partitionGo (metadata : List MetaObj) :
    List PoseObj → List String →
      List (PoseObj × MetaObj) × List (PoseObj × MetaObj) × List PoseObj
  | [], _ => ([], [], [])
  | p :: ps, used =>
    match match_object_name p.objectName metadata used with
    | none =>
      ((partitionGo metadata ps used).1, (partitionGo metadata ps used).2.1,
        p :: (partitionGo metadata ps used).2.2)
    | some m =>
      if (receptacleTypes metadata).contains m.objectType then
        ((p, m) :: (partitionGo metadata ps (m.name :: used)).1,
          (partitionGo metadata ps (m.name :: used)).2.1,
          (partitionGo metadata ps (m.name :: used)).2.2)
      else
        ((partitionGo metadata ps (m.name :: used)).1,
          (p, m) :: (partitionGo metadata ps (m.name :: used)).2.1,
          (partitionGo metadata ps (m.name :: used)).2.2)

/-- The partition of the pose list, starting from an empty used set. -/
def partitionObjects (metadata : List MetaObj) (poses : List PoseObj) :
    List (PoseObj × MetaObj) × List (PoseObj × MetaObj) × List PoseObj :=
  partitionGo metadata poses []

/-! Concrete scene fixtures used to exercise the definitions. -/

def tableMeta : MetaObj :=
  { name := "Table_1", objectType := "Table", receptacle := true, pos := ⟨0, 0, 0⟩ }

def lampMeta : MetaObj :=
  { name := "FloorLamp_1", objectType := "FloorLamp", receptacle := false, pos := ⟨2, 0, 2⟩ }

def eggPose : PoseObj := ⟨"Egg_1", ⟨0, 1, 0⟩⟩

def fridgeMeta : MetaObj :=
  { name := "Fridge_1", objectType := "Fridge", receptacle := true, pos := ⟨0, 0, 0⟩ }

def fridgePose : PoseObj := ⟨"Fridge_1", ⟨0, 0, 0⟩⟩

def applePose : PoseObj := ⟨"Apple_7", ⟨1, 2, 3⟩⟩

def counterA : PoseObj × MetaObj :=
  (⟨"CounterA_1", ⟨1, 0, 0⟩⟩,
   { name := "CounterA_1", objectType := "CounterA", receptacle := true, pos := ⟨1, 0, 0⟩ })

def counterB : PoseObj × MetaObj :=
  (⟨"CounterB_1", ⟨0.4, 0.4, 0⟩⟩,
   { name := "CounterB_1", objectType := "CounterB", receptacle := true, pos := ⟨0.4, 0.4, 0⟩ })

def counterL : PoseObj × MetaObj :=
  (⟨"CounterL_1", ⟨0.5, 0, 0⟩⟩,
   { name := "CounterL_1", objectType := "CounterL", receptacle := true, pos := ⟨0.5, 0, 0⟩ })

def counterR : PoseObj × MetaObj :=
  (⟨"CounterR_1", ⟨-0.5, 0, 0⟩⟩,
   { name := "CounterR_1", objectType := "CounterR", receptacle := true, pos := ⟨-0.5, 0, 0⟩ })

/-! ## Theorems -/

/-- C9: capitalize_first is total on all strings: the empty string maps to
itself (the s[0] access is guarded by the emptiness check), and a non-empty
string has exactly its first character uppercased with the rest unchanged. -/
theorem capitalize_first_total :
    capitalize_first "" = "" ∧
    (∀ (c : Char) (cs : List Char),
      capitalize_first (String.mk (c :: cs)) = String.mk (c.toUpper :: cs)) ∧
    (∀ s : String, (capitalize_first s).length = s.length ∧
      (capitalize_first s).data.tail = s.data.tail) := by
  refine ⟨rfl, fun c cs => rfl, fun s => ?_⟩
  obtain ⟨data⟩ := s
  cases data
  · exact ⟨rfl, rfl⟩
  · exact ⟨rfl, rfl⟩

/-- Witness for C9 at a concrete non-empty string. -/
theorem capitalize_first_total_witness : capitalize_first "apple" = "Apple" := by
  have h := capitalize_first_total.2.1 'a' ['p', 'p', 'l', 'e']
  exact h.trans (by decide)

/-- C10: the snapshot's random seed is reduced modulo 2147483647 exactly when
it strictly exceeds 2147483647, and is used unchanged otherwise (in
particular a seed of exactly 2147483647 is not reduced). -/
theorem normalizeSeed_conditional (s : ℤ) :
    (2147483647 < s → normalizeSeed s = s % 2147483647) ∧
    (s ≤ 2147483647 → normalizeSeed s = s) := by
  constructor
  · intro h
    unfold normalizeSeed
    rw [if_pos h]
  · intro h
    unfold normalizeSeed
    rw [if_neg (by omega)]

/-- Witness for C10 just above and at the boundary value. -/
theorem normalizeSeed_conditional_witness :
    normalizeSeed 2147483648 = 1 ∧ normalizeSeed 2147483647 = 2147483647 := by
  constructor
  · rw [(normalizeSeed_conditional 2147483648).1 (by norm_num)]
    decide
  · exact (normalizeSeed_conditional 2147483647).2 (by norm_num)

/-- C8: the trailing summary sentence pluralizes correctly: the singular
forms is/object/receptacle appear exactly when the respective count is 1,
the plural forms are/objects/receptacles otherwise (counts 0 and N). -/
theorem summaryLine_pluralization (n m : Nat) :
    (n = 1 ∧ m = 1 →
      summaryLine n m = "In total there is 1 movable object and 1 receptacle in the room.") ∧
    (n = 1 ∧ m ≠ 1 →
      summaryLine n m = "In total there is 1 movable object and " ++ toString m ++
        " receptacles in the room.") ∧
    (n ≠ 1 ∧ m = 1 →
      summaryLine n m = "In total there are " ++ toString n ++
        " movable objects and 1 receptacle in the room.") ∧
    (n ≠ 1 ∧ m ≠ 1 →
      summaryLine n m = "In total there are " ++ toString n ++ " movable objects and " ++
        toString m ++ " receptacles in the room.") := by
  refine ⟨?_, ?_, ?_, ?_⟩
  · rintro ⟨rfl, rfl⟩
    rfl
  · rintro ⟨rfl, hm⟩
    simp only [summaryLine, if_pos rfl, ne_eq, not_true_eq_false, if_false,
      String.append_empty, hm, not_false_eq_true, if_true]
    rw [show ("In total there " ++ "is" ++ " " ++ toString 1 ++ " movable object" ++ " and " : String)
        = "In total there is 1 movable object and " from rfl]
    simp only [String.append_assoc]
    rfl
  · rintro ⟨hn, rfl⟩
    simp only [summaryLine, hn, ne_eq, not_false_eq_true, if_true, if_false,
      not_true_eq_false, String.append_empty]
    rw [show ("In total there " ++ "are" ++ " " : String) = "In total there are " from rfl]
    simp only [String.append_assoc]
    rfl
  · rintro ⟨hn, hm⟩
    simp only [summaryLine, hn, hm, ne_eq, not_false_eq_true, if_true, if_false,
      String.append_empty]
    rw [show ("In total there " ++ "are" ++ " " : String) = "In total there are " from rfl]
    simp only [String.append_assoc]
    rfl

/-- Witness for C8 at counts covering the singular and plural branches. -/
theorem summaryLine_pluralization_witness :
    summaryLine 1 1 = "In total there is 1 movable object and 1 receptacle in the room." ∧
    summaryLine 0 2 = "In total there are 0 movable objects and 2 receptacles in the room." := by
  constructor
  · exact (summaryLine_pluralization 1 1).1 ⟨rfl, rfl⟩
  · exact ((summaryLine_pluralization 0 2).2.2.2 ⟨by decide, by decide⟩).trans rfl

/-- Evaluate the horizontal distance when the squared planar offset is a
perfect square of a nonnegative rational. -/
theorem horizontal_dist_eq (p1 p2 : Pos) (d : ℚ) (hd : 0 ≤ d)
    (h : (p1.x - p2.x) ^ 2 + (p1.z - p2.z) ^ 2 = d ^ 2) :
    horizontal_dist p1 p2 = (d : ℝ) := by
  unfold horizontal_dist
  have h2 : ((p1.x : ℝ) - (p2.x : ℝ)) ^ 2 + ((p1.z : ℝ) - (p2.z : ℝ)) ^ 2 = ((d : ℝ)) ^ 2 := by
    exact_mod_cast h
  rw [h2, Real.sqrt_sq (by exact_mod_cast hd)]

/-- The first guard of the chain fires: the pair is classified "on". -/
theorem classifyRel_on_eq (ip rp : Pos)
    (h : ip.y > rp.y ∧ vertical_dist ip rp < 1.5 ∧ horizontal_dist ip rp < 1.0) :
    classifyRel ip rp = some (Label.on, horizontal_dist ip rp) := by
  unfold classifyRel
  rw [if_pos h]

/-- The first guard of the claude chain fires: the pair is classified "on". -/
theorem classifyRelClaude_on_eq (ip rp : Pos)
    (h : ip.y > rp.y ∧ vertical_dist ip rp < 1.5 ∧ horizontal_dist ip rp < 1.0) :
    classifyRelClaude ip rp = some (Label.on, horizontal_dist ip rp) := by
  unfold classifyRelClaude
  rw [if_pos h]

/-- The "in" branch of the chain: score is the horizontal distance + 0.1. -/
theorem classifyRel_inside_eq (ip rp : Pos)
    (hno : ¬(ip.y > rp.y ∧ vertical_dist ip rp < 1.5 ∧ horizontal_dist ip rp < 1.0))
    (h : vertical_dist ip rp < 0.3 ∧ horizontal_dist ip rp < 0.5) :
    classifyRel ip rp = some (Label.inside, horizontal_dist ip rp + 0.1) := by
  unfold classifyRel
  rw [if_neg hno, if_pos h]

/-- The "in" branch of the claude chain: priority is the bare horizontal
distance. -/
theorem classifyRelClaude_inside_eq (ip rp : Pos)
    (hno : ¬(ip.y > rp.y ∧ vertical_dist ip rp < 1.5 ∧ horizontal_dist ip rp < 1.0))
    (h : vertical_dist ip rp < 0.3 ∧ horizontal_dist ip rp < 0.5) :
    classifyRelClaude ip rp = some (Label.inside, horizontal_dist ip rp) := by
  unfold classifyRelClaude
  rw [if_neg hno, if_pos h]

/-- The "next to" branch of the claude chain. -/
theorem classifyRelClaude_next_to_eq (ip rp : Pos)
    (hno : ¬(ip.y > rp.y ∧ vertical_dist ip rp < 1.5 ∧ horizontal_dist ip rp < 1.0))
    (hni : ¬(vertical_dist ip rp < 0.3 ∧ horizontal_dist ip rp < 0.5))
    (h : vertical_dist ip rp < 0.5 ∧ horizontal_dist ip rp < 1.5) :
    classifyRelClaude ip rp = some (Label.next_to, horizontal_dist ip rp + 0.5) := by
  unfold classifyRelClaude
  rw [if_neg hno, if_neg hni, if_pos h]

/-- C1: whenever an item-receptacle pair satisfies both the on guard
(iy > ry, vertical < 1.5, horizontal < 1.0) and the near guard
(horizontal < 2.5), the first-match-wins chain assigns the label on, in
both script variants. -/
theorem on_priority (ip rp : Pos)
    (hy : ip.y > rp.y) (hv : vertical_dist ip rp < 1.5)
    (hh : horizontal_dist ip rp < 1.0) (_hnear : horizontal_dist ip rp < 2.5) :
    classifyRel ip rp = some (Label.on, horizontal_dist ip rp) ∧
    classifyRelClaude ip rp = some (Label.on, horizontal_dist ip rp) :=
  ⟨classifyRel_on_eq ip rp ⟨hy, hv, hh⟩, classifyRelClaude_on_eq ip rp ⟨hy, hv, hh⟩⟩

/-- Witness for C1: an item directly above a table satisfies both guards and
is labelled on with score 0. -/
theorem on_priority_witness :
    classifyRel ⟨0, 1, 0⟩ ⟨0, 0, 0⟩ = some (Label.on, 0) ∧
    classifyRelClaude ⟨0, 1, 0⟩ ⟨0, 0, 0⟩ = some (Label.on, 0) := by
  have hd : horizontal_dist ⟨0, 1, 0⟩ ⟨0, 0, 0⟩ = ((0 : ℚ) : ℝ) :=
    horizontal_dist_eq _ _ 0 le_rfl (by norm_num)
  have h := on_priority ⟨0, 1, 0⟩ ⟨0, 0, 0⟩ (by norm_num) (by norm_num [vertical_dist])
    (by rw [hd]; norm_num) (by rw [hd]; norm_num)
  rw [hd] at h
  constructor
  · exact h.1.trans (by norm_num)
  · exact h.2.trans (by norm_num)

/-- C2 counterexample: in scene_info_extract_claude.py the pair
item (0.2,0,0) / receptacle (0,0,0) is labelled in with priority 0.2 (the
bare horizontal distance), not 0.3 as the claim states. -/
theorem inside_score_counterexample :
    classifyRelClaude ⟨0.2, 0, 0⟩ ⟨0, 0, 0⟩ = some (Label.inside, 0.2) ∧
    classifyRelClaude ⟨0.2, 0, 0⟩ ⟨0, 0, 0⟩ ≠ some (Label.inside, 0.3) := by
  have hd : horizontal_dist ⟨0.2, 0, 0⟩ ⟨0, 0, 0⟩ = ((0.2 : ℚ) : ℝ) :=
    horizontal_dist_eq _ _ 0.2 (by norm_num) (by norm_num)
  have hno : ¬((⟨0.2, 0, 0⟩ : Pos).y > (⟨0, 0, 0⟩ : Pos).y ∧
      vertical_dist ⟨0.2, 0, 0⟩ ⟨0, 0, 0⟩ < 1.5 ∧
      horizontal_dist ⟨0.2, 0, 0⟩ ⟨0, 0, 0⟩ < 1.0) := by
    rintro ⟨h, -, -⟩
    exact lt_irrefl 0 h
  have h := classifyRelClaude_inside_eq ⟨0.2, 0, 0⟩ ⟨0, 0, 0⟩ hno
    ⟨by norm_num [vertical_dist], by rw [hd]; norm_num⟩
  rw [hd] at h
  have h02 : classifyRelClaude ⟨0.2, 0, 0⟩ ⟨0, 0, 0⟩ = some (Label.inside, 0.2) :=
    h.trans (by norm_num)
  refine ⟨h02, fun hc => ?_⟩
  rw [h02] at hc
  simp only [Option.some.injEq, Prod.mk.injEq, true_and] at hc
  norm_num at hc

/-- C2 amended: in scene_info_extract.py every pair passing the in guard
(and failing the on guard) scores horizontal + 0.1, giving 0.3 for
item (0.2,0,0) / receptacle (0,0,0); in scene_info_extract_claude.py the
same pairs are labelled in with priority equal to the bare horizontal
distance. -/
theorem inside_rule_scores :
    (∀ ip rp : Pos,
      ¬(ip.y > rp.y ∧ vertical_dist ip rp < 1.5 ∧ horizontal_dist ip rp < 1.0) →
      vertical_dist ip rp < 0.3 → horizontal_dist ip rp < 0.5 →
      classifyRel ip rp = some (Label.inside, horizontal_dist ip rp + 0.1) ∧
      classifyRelClaude ip rp = some (Label.inside, horizontal_dist ip rp)) ∧
    classifyRel ⟨0.2, 0, 0⟩ ⟨0, 0, 0⟩ = some (Label.inside, 0.3) := by
  have hgen : ∀ ip rp : Pos,
      ¬(ip.y > rp.y ∧ vertical_dist ip rp < 1.5 ∧ horizontal_dist ip rp < 1.0) →
      vertical_dist ip rp < 0.3 → horizontal_dist ip rp < 0.5 →
      classifyRel ip rp = some (Label.inside, horizontal_dist ip rp + 0.1) ∧
      classifyRelClaude ip rp = some (Label.inside, horizontal_dist ip rp) :=
    fun ip rp hno hv hh =>
      ⟨classifyRel_inside_eq ip rp hno ⟨hv, hh⟩, classifyRelClaude_inside_eq ip rp hno ⟨hv, hh⟩⟩
  refine ⟨hgen, ?_⟩
  have hd : horizontal_dist ⟨0.2, 0, 0⟩ ⟨0, 0, 0⟩ = ((0.2 : ℚ) : ℝ) :=
    horizontal_dist_eq _ _ 0.2 (by norm_num) (by norm_num)
  have hno : ¬((⟨0.2, 0, 0⟩ : Pos).y > (⟨0, 0, 0⟩ : Pos).y ∧
      vertical_dist ⟨0.2, 0, 0⟩ ⟨0, 0, 0⟩ < 1.5 ∧
      horizontal_dist ⟨0.2, 0, 0⟩ ⟨0, 0, 0⟩ < 1.0) := by
    rintro ⟨h, -, -⟩
    exact lt_irrefl 0 h
  have h := (hgen ⟨0.2, 0, 0⟩ ⟨0, 0, 0⟩ hno (by norm_num [vertical_dist])
    (by rw [hd]; norm_num)).1
  rw [hd] at h
  exact h.trans (by norm_num)

/-- Witness for C2 (amended), applying the general rule at the concrete pair
of the claim. -/
theorem inside_rule_scores_witness :
    classifyRelClaude ⟨0.2, 0, 0⟩ ⟨0, 0, 0⟩ = some (Label.inside, (0.2 : ℝ)) := by
  have hd : horizontal_dist ⟨0.2, 0, 0⟩ ⟨0, 0, 0⟩ = ((0.2 : ℚ) : ℝ) :=
    horizontal_dist_eq _ _ 0.2 (by norm_num) (by norm_num)
  have hno : ¬((⟨0.2, 0, 0⟩ : Pos).y > (⟨0, 0, 0⟩ : Pos).y ∧
      vertical_dist ⟨0.2, 0, 0⟩ ⟨0, 0, 0⟩ < 1.5 ∧
      horizontal_dist ⟨0.2, 0, 0⟩ ⟨0, 0, 0⟩ < 1.0) := by
    rintro ⟨h, -, -⟩
    exact lt_irrefl 0 h
  have h := (inside_rule_scores.1 ⟨0.2, 0, 0⟩ ⟨0, 0, 0⟩ hno (by norm_num [vertical_dist])
    (by rw [hd]; norm_num)).2
  rw [hd] at h
  exact h.trans (by norm_num)

/-- C3: the selector compares with strict less-than, so when two receptacles
produce candidates of identical score the one earlier in the input sequence
wins. -/
theorem tie_break_first_wins (ip : Pos) (r1 r2 : PoseObj × MetaObj) (l1 l2 : Label) (s : ℝ)
    (h1 : classifyRelClaude ip r1.1.pos = some (l1, s))
    (h2 : classifyRelClaude ip r2.1.pos = some (l2, s)) :
    findBestClaude ip [r1, r2] = some (l1, s, r1.2.objectType) := by
  unfold findBestClaude
  simp only [List.foldl_cons, List.foldl_nil, h1, h2, lt_self_iff_false, if_false]

/-- Witness for C3: two receptacles at mirrored offsets give equal on scores
and the first one is selected. -/
theorem tie_break_first_wins_witness :
    findBestClaude ⟨0, 1, 0⟩ [counterL, counterR] = some (Label.on, 0.5, "CounterL") := by
  have hdL : horizontal_dist ⟨0, 1, 0⟩ ⟨0.5, 0, 0⟩ = ((0.5 : ℚ) : ℝ) :=
    horizontal_dist_eq _ _ 0.5 (by norm_num) (by norm_num)
  have hdR : horizontal_dist ⟨0, 1, 0⟩ ⟨-0.5, 0, 0⟩ = ((0.5 : ℚ) : ℝ) :=
    horizontal_dist_eq _ _ 0.5 (by norm_num) (by norm_num)
  have e1 : classifyRelClaude ⟨0, 1, 0⟩ counterL.1.pos = some (Label.on, ((0.5 : ℚ) : ℝ)) := by
    have h := classifyRelClaude_on_eq ⟨0, 1, 0⟩ ⟨0.5, 0, 0⟩
      ⟨by norm_num, by norm_num [vertical_dist], by rw [hdL]; norm_num⟩
    rw [hdL] at h
    exact h
  have e2 : classifyRelClaude ⟨0, 1, 0⟩ counterR.1.pos = some (Label.on, ((0.5 : ℚ) : ℝ)) := by
    have h := classifyRelClaude_on_eq ⟨0, 1, 0⟩ ⟨-0.5, 0, 0⟩
      ⟨by norm_num, by norm_num [vertical_dist], by rw [hdR]; norm_num⟩
    rw [hdR] at h
    exact h
  have h := tie_break_first_wins ⟨0, 1, 0⟩ counterL counterR Label.on Label.on
    ((0.5 : ℚ) : ℝ) e1 e2
  exact h.trans (by norm_num [counterL])

/-- C6 counterexample: with the item at the only planar point compatible
with the stated horizontal distances, CounterA at (1,0,0) yields a next_to
candidate of score 1.5, not the near candidate of score 2.0 the claim
describes. -/
theorem scenario4_counterexample :
    classifyRelClaude ⟨0, 0, 0⟩ ⟨1, 0, 0⟩ = some (Label.next_to, 1.5) ∧
    classifyRelClaude ⟨0, 0, 0⟩ ⟨1, 0, 0⟩ ≠ some (Label.near, 2) := by
  have hd : horizontal_dist ⟨0, 0, 0⟩ ⟨1, 0, 0⟩ = ((1 : ℚ) : ℝ) :=
    horizontal_dist_eq _ _ 1 (by norm_num) (by norm_num)
  have hno : ¬((⟨0, 0, 0⟩ : Pos).y > (⟨1, 0, 0⟩ : Pos).y ∧
      vertical_dist ⟨0, 0, 0⟩ ⟨1, 0, 0⟩ < 1.5 ∧
      horizontal_dist ⟨0, 0, 0⟩ ⟨1, 0, 0⟩ < 1.0) := by
    rintro ⟨h, -, -⟩
    exact lt_irrefl 0 h
  have hni : ¬(vertical_dist ⟨0, 0, 0⟩ ⟨1, 0, 0⟩ < 0.3 ∧
      horizontal_dist ⟨0, 0, 0⟩ ⟨1, 0, 0⟩ < 0.5) := by
    rintro ⟨-, h⟩
    rw [hd] at h
    norm_num at h
  have h := classifyRelClaude_next_to_eq ⟨0, 0, 0⟩ ⟨1, 0, 0⟩ hno hni
    ⟨by norm_num [vertical_dist], by rw [hd]; norm_num⟩
  rw [hd] at h
  have h15 : classifyRelClaude ⟨0, 0, 0⟩ ⟨1, 0, 0⟩ = some (Label.next_to, 1.5) :=
    h.trans (by norm_num)
  refine ⟨h15, fun hc => ?_⟩
  rw [h15] at hc
  simp only [Option.some.injEq, Prod.mk.injEq] at hc
  exact absurd hc.1 (by decide)

/-- C6 amended: for the item at (0,0,0), CounterA at (1,0,0) gives a next_to
candidate of score 1.5 and CounterB at (0.4,0.4,0) gives a next_to candidate
of score 0.9; the selector picks CounterB, the lower score, regardless of
distance magnitude alone. -/
theorem scenario4_selector :
    classifyRelClaude ⟨0, 0, 0⟩ counterA.1.pos = some (Label.next_to, 1.5) ∧
    classifyRelClaude ⟨0, 0, 0⟩ counterB.1.pos = some (Label.next_to, 0.9) ∧
    findBestClaude ⟨0, 0, 0⟩ [counterA, counterB] = some (Label.next_to, 0.9, "CounterB") := by
  have hdA : horizontal_dist ⟨0, 0, 0⟩ ⟨1, 0, 0⟩ = ((1 : ℚ) : ℝ) :=
    horizontal_dist_eq _ _ 1 (by norm_num) (by norm_num)
  have hdB : horizontal_dist ⟨0, 0, 0⟩ ⟨0.4, 0.4, 0⟩ = ((0.4 : ℚ) : ℝ) :=
    horizontal_dist_eq _ _ 0.4 (by norm_num) (by norm_num)
  have eA : classifyRelClaude ⟨0, 0, 0⟩ counterA.1.pos = some (Label.next_to, 1.5) := by
    have hno : ¬((⟨0, 0, 0⟩ : Pos).y > (⟨1, 0, 0⟩ : Pos).y ∧
        vertical_dist ⟨0, 0, 0⟩ ⟨1, 0, 0⟩ < 1.5 ∧
        horizontal_dist ⟨0, 0, 0⟩ ⟨1, 0, 0⟩ < 1.0) := by
      rintro ⟨h, -, -⟩
      exact lt_irrefl 0 h
    have hni : ¬(vertical_dist ⟨0, 0, 0⟩ ⟨1, 0, 0⟩ < 0.3 ∧
        horizontal_dist ⟨0, 0, 0⟩ ⟨1, 0, 0⟩ < 0.5) := by
      rintro ⟨-, h⟩
      rw [hdA] at h
      norm_num at h
    have h := classifyRelClaude_next_to_eq ⟨0, 0, 0⟩ ⟨1, 0, 0⟩ hno hni
      ⟨by norm_num [vertical_dist], by rw [hdA]; norm_num⟩
    rw [hdA] at h
    exact h.trans (by norm_num)
  have eB : classifyRelClaude ⟨0, 0, 0⟩ counterB.1.pos = some (Label.next_to, 0.9) := by
    have hno : ¬((⟨0, 0, 0⟩ : Pos).y > (⟨0.4, 0.4, 0⟩ : Pos).y ∧
        vertical_dist ⟨0, 0, 0⟩ ⟨0.4, 0.4, 0⟩ < 1.5 ∧
        horizontal_dist ⟨0, 0, 0⟩ ⟨0.4, 0.4, 0⟩ < 1.0) := by
      rintro ⟨h, -, -⟩
      norm_num at h
    have hni : ¬(vertical_dist ⟨0, 0, 0⟩ ⟨0.4, 0.4, 0⟩ < 0.3 ∧
        horizontal_dist ⟨0, 0, 0⟩ ⟨0.4, 0.4, 0⟩ < 0.5) := by
      rintro ⟨h, -⟩
      norm_num [vertical_dist, abs_lt] at h
    have h := classifyRelClaude_next_to_eq ⟨0, 0, 0⟩ ⟨0.4, 0.4, 0⟩ hno hni
      ⟨by norm_num [vertical_dist, abs_lt], by rw [hdB]; norm_num⟩
    rw [hdB] at h
    exact h.trans (by norm_num)
  refine ⟨eA, eB, ?_⟩
  unfold findBestClaude
  simp only [List.foldl_cons, List.foldl_nil, eA, eB]
  rw [if_pos (by norm_num)]
  norm_num [counterB]

/-- A step of the best-receptacle scan never discards a candidate already
held: once the accumulator is some, it stays some. -/
theorem bestStep_some_ne_none (ip : Pos) (b : String × ℝ) (rec : MetaObj) :
    bestStep ip (some b) rec ≠ none := by
  unfold bestStep
  cases h : classifyRel ip rec.pos with
  | none => simp
  | some ls =>
    obtain ⟨l, s⟩ := ls
    by_cases hlt : s < b.2
    · simp [hlt]
    · simp [hlt]

/-- The scan starting from a held candidate never returns none. -/
theorem foldl_bestStep_some_ne_none (ip : Pos) (recs : List MetaObj) (b : String × ℝ) :
    recs.foldl (bestStep ip) (some b) ≠ none := by
  induction recs generalizing b with
  | nil => simp
  | cons r rs ih =>
    rw [List.foldl_cons]
    cases hstep : bestStep ip (some b) r with
    | none => exact absurd hstep (bestStep_some_ne_none ip b r)
    | some b2 => exact ih b2

/-- The best-receptacle scan comes back empty exactly when no receptacle
satisfies any of the four classification rules for the item. -/
theorem bestRel_none_iff (ip : Pos) (recs : List MetaObj) :
    bestRel ip recs = none ↔ ∀ rec ∈ recs, classifyRel ip rec.pos = none := by
  induction recs with
  | nil => simp [bestRel]
  | cons r rs ih =>
    unfold bestRel at ih ⊢
    rw [List.foldl_cons]
    cases h : classifyRel ip r.pos with
    | none =>
      have hstep : bestStep ip none r = none := by
        unfold bestStep
        rw [h]
      rw [hstep]
      simp only [List.mem_cons]
      constructor
      · intro hf x hx
        rcases hx with hx | hx
        · rw [hx]; exact h
        · exact ih.mp hf x hx
      · intro hall
        exact ih.mpr (fun x hx => hall x (Or.inr hx))
    | some ls =>
      obtain ⟨l, s⟩ := ls
      have hstep : bestStep ip none r = some (relPhrase l r.objectType.toLower, s) := by
        unfold bestStep
        rw [h]
      rw [hstep]
      simp only [List.mem_cons]
      constructor
      · intro hf
        exact absurd hf (foldl_bestStep_some_ne_none ip rs _)
      · intro hall
        have := hall r (Or.inl rfl)
        rw [h] at this
        exact absurd this (by simp)

/-- C4: the engine emits exactly one relationship line per movable item, and
an item's best relationship is absent (so the line falls back to the
unplaced "lying in the room" phrase) exactly when no receptacle satisfied
any of the four classification rules for it. -/
theorem relationship_records_total (objects : List MetaObj) (poses : List PoseObj) :
    (relationshipLines objects poses).length = poses.length ∧
    (∀ pose ∈ poses,
      (bestRel (itemPosOf objects pose) (receptacles_meta objects) = none ↔
        ∀ rec ∈ receptacles_meta objects,
          classifyRel (itemPosOf objects pose) rec.pos = none)) ∧
    (∀ pose ∈ poses,
      (∀ rec ∈ receptacles_meta objects,
          classifyRel (itemPosOf objects pose) rec.pos = none) →
        itemLine objects (receptacles_meta objects) pose =
          capitalize_first ("A " ++ itemTypeOf pose.objectName ++
            state_adj (obj_by_name objects pose.objectName) ++ " is lying in the room.")) := by
  refine ⟨by simp [relationshipLines], fun pose _ => bestRel_none_iff _ _, fun pose _ hall => ?_⟩
  have hnone : bestRel (itemPosOf objects pose) (receptacles_meta objects) = none :=
    (bestRel_none_iff _ _).mpr hall
  unfold itemLine
  rw [hnone]
  simp only [String.append_assoc]
  rfl

/-- Witness for C4 on a one-item, one-receptacle scene. -/
theorem relationship_records_total_witness :
    (relationshipLines [tableMeta] [eggPose]).length = 1 ∧
    (bestRel (itemPosOf [tableMeta] eggPose) (receptacles_meta [tableMeta]) = none ↔
      ∀ rec ∈ receptacles_meta [tableMeta],
        classifyRel (itemPosOf [tableMeta] eggPose) rec.pos = none) :=
  ⟨(relationship_records_total [tableMeta] [eggPose]).1,
   (relationship_records_total [tableMeta] [eggPose]).2.1 eggPose (List.mem_singleton.mpr rfl)⟩

/-- C5: with zero receptacles in the snapshot every item resolves to the
unplaced fallback line, one line per item, with no failure possible. -/
theorem empty_receptacles_unplaced (objects : List MetaObj) (poses : List PoseObj)
    (hno : receptacles_meta objects = []) :
    (relationshipLines objects poses).length = poses.length ∧
    ∀ pose ∈ poses,
      itemLine objects (receptacles_meta objects) pose =
        capitalize_first ("A " ++ itemTypeOf pose.objectName ++
          state_adj (obj_by_name objects pose.objectName) ++ " is lying in the room.") := by
  refine ⟨by simp [relationshipLines], fun pose _ => ?_⟩
  rw [hno]
  unfold itemLine
  have hb : bestRel (itemPosOf objects pose) [] = none := rfl
  rw [hb]
  simp only [String.append_assoc]
  rfl

/-- Witness for C5: a scene whose only object is not a receptacle yields the
unplaced line for the single item. -/
theorem empty_receptacles_unplaced_witness :
    (relationshipLines [lampMeta] [eggPose]).length = 1 ∧
    itemLine [lampMeta] (receptacles_meta [lampMeta]) eggPose = "A egg is lying in the room." := by
  have h := empty_receptacles_unplaced [lampMeta] [eggPose] rfl
  refine ⟨h.1, (h.2 eggPose (List.mem_singleton.mpr rfl)).trans ?_⟩
  decide

/-- Invariants of the partition loop, for any starting used set: the three
output lists repartition the input poses (as a permutation of disjoint
order-preserving subsequences), receptacle entries carry a receptacle type
and item entries do not. -/
theorem partitionGo_spec (metadata : List MetaObj) (poses : List PoseObj) (used : List String) :
    ((partitionGo metadata poses used).1.map Prod.fst ++
      (partitionGo metadata poses used).2.1.map Prod.fst ++
      (partitionGo metadata poses used).2.2).Perm poses ∧
    List.Sublist ((partitionGo metadata poses used).1.map Prod.fst) poses ∧
    List.Sublist ((partitionGo metadata poses used).2.1.map Prod.fst) poses ∧
    List.Sublist (partitionGo metadata poses used).2.2 poses ∧
    (∀ pm ∈ (partitionGo metadata poses used).1,
      (receptacleTypes metadata).contains pm.2.objectType = true) ∧
    (∀ pm ∈ (partitionGo metadata poses used).2.1,
      (receptacleTypes metadata).contains pm.2.objectType = false) := by
  induction poses generalizing used with
  | nil => simp [partitionGo]
  | cons p ps ih =>
    cases hm : match_object_name p.objectName metadata used with
    | none =>
      obtain ⟨hperm, hs1, hs2, hs3, hr, hi⟩ := ih used
      have hgo : partitionGo metadata (p :: ps) used =
          ((partitionGo metadata ps used).1, (partitionGo metadata ps used).2.1,
            p :: (partitionGo metadata ps used).2.2) := by
        simp [partitionGo, hm]
      rw [hgo]
      exact ⟨List.perm_middle.trans (hperm.cons p), hs1.cons p, hs2.cons p,
        hs3.cons₂ p, hr, hi⟩
    | some m =>
      obtain ⟨hperm, hs1, hs2, hs3, hr, hi⟩ := ih (m.name :: used)
      cases hrt : (receptacleTypes metadata).contains m.objectType with
      | true =>
        have hgo : partitionGo metadata (p :: ps) used =
            ((p, m) :: (partitionGo metadata ps (m.name :: used)).1,
              (partitionGo metadata ps (m.name :: used)).2.1,
              (partitionGo metadata ps (m.name :: used)).2.2) := by
          simp only [partitionGo, hm]
          rw [if_pos (by simpa using hrt)]
        rw [hgo]
        simp only [List.map_cons, List.cons_append]
        refine ⟨hperm.cons p, hs1.cons₂ p, hs2.cons p, hs3.cons p, ?_, hi⟩
        intro pm hpm
        rcases List.mem_cons.mp hpm with h | h
        · rw [h]
          exact hrt
        · exact hr pm h
      | false =>
        have hgo : partitionGo metadata (p :: ps) used =
            ((partitionGo metadata ps (m.name :: used)).1,
              (p, m) :: (partitionGo metadata ps (m.name :: used)).2.1,
              (partitionGo metadata ps (m.name :: used)).2.2) := by
          simp only [partitionGo, hm]
          rw [if_neg (by simpa using hrt)]
        rw [hgo]
        simp only [List.map_cons]
        rw [List.append_assoc] at hperm ⊢
        rw [List.cons_append]
        refine ⟨List.perm_middle.trans (hperm.cons p), hs1.cons p, hs2.cons₂ p,
          hs3.cons p, hr, ?_⟩
        intro pm hpm
        rcases List.mem_cons.mp hpm with h | h
        · rw [h]
          exact hrt
        · exact hi pm h

/-- C7 (amended): the partitioner splits the pose sequence into receptacles
and items preserving relative input order; every pose appears in exactly one
of receptacles, items, or the dropped list (counted by the permutation),
receptacle entries have a receptacle object type and item entries do not. -/
theorem partition_spec (metadata : List MetaObj) (poses : List PoseObj) :
    ((partitionObjects metadata poses).1.map Prod.fst ++
      (partitionObjects metadata poses).2.1.map Prod.fst ++
      (partitionObjects metadata poses).2.2).Perm poses ∧
    List.Sublist ((partitionObjects metadata poses).1.map Prod.fst) poses ∧
    List.Sublist ((partitionObjects metadata poses).2.1.map Prod.fst) poses ∧
    List.Sublist (partitionObjects metadata poses).2.2 poses ∧
    (∀ pm ∈ (partitionObjects metadata poses).1,
      (receptacleTypes metadata).contains pm.2.objectType = true) ∧
    (∀ pm ∈ (partitionObjects metadata poses).2.1,
      (receptacleTypes metadata).contains pm.2.objectType = false) :=
  partitionGo_spec metadata poses []

/-- C7 counterexample: a pose with full position data but no metadata match
is dropped from both output sequences, so the only drops are match failures,
not missing-position objects. -/
theorem partition_counterexample :
    partitionObjects [fridgeMeta] [applePose] = ([], [], [applePose]) ∧
    applePose.pos = ⟨1, 2, 3⟩ :=
  ⟨rfl, rfl⟩

/-- Witness for C7 on a scene where one pose matches a receptacle and one
pose is dropped. -/
theorem partition_spec_witness :
    (receptacleTypes [fridgeMeta]).contains
      ((fridgePose, fridgeMeta) : PoseObj × MetaObj).2.objectType = true :=
  (partition_spec [fridgeMeta] [fridgePose, applePose]).2.2.2.2.1 (fridgePose, fridgeMeta)
    (by
      rw [show (partitionObjects [fridgeMeta] [fridgePose, applePose]).1 =
        [(fridgePose, fridgeMeta)] from rfl]
      exact List.mem_singleton.mpr rfl)
